import Mathlib

/-!
Verification of the Hanak Search incremental-search widget
(`src/deploy.sh` embedded widget, `src/search-ui/search.js`).

The widget's pure logic is shallowly embedded below: HTML string
templating, the debounced query dispatcher, the keyboard navigation
controller, the panel open/close state machine and the lightbox
carousel.  DOM mutation is modelled as explicit state records, timers
and network responses as events fed to step functions.
-/

namespace HanakSearch

/-- MIN_CHARS constant of the widget. -/
def MIN_CHARS : Nat := 2

/-- MAX_SUGGESTIONS constant of the widget (deploy.sh variant). -/
def MAX_SUGGESTIONS : Nat := 20

/-- One suggestion as delivered by the backend
(`\x7b title, url, image?, category?, score? \x7d`). -/
structure Suggestion where
  title : String
  url : String
  image : Option String
  category : Option String
  score : Option ℚ
deriving DecidableEq

/-- A suggest-endpoint response payload. -/
structure SuggestResponse where
  query : String
  time_ms : Nat
  suggestions : List Suggestion
deriving DecidableEq

/-- Escaping of one character as performed by the escapeHtml helper
(a detached div's textContent/innerHTML round trip escapes the three
characters ampersand, less-than and greater-than). -/
def escapeChar (c : Char) : String :=
  if c = '&' then "&amp;"
  else if c = '<' then "&lt;"
  else if c = '>' then "&gt;"
  else String.singleton c

/-- Character-list version of escapeHtml. -/
def escapeList : List Char → List Char
  | [] => []
  | c :: rest => (escapeChar c).data ++ escapeList rest

/-- The widget's escapeHtml helper. -/
def escapeHtml (s : String) : String := String.mk (escapeList s.data)

/-- Tests whether the first list is an exact leading segment of the second. -/
def leadsEq : List Char → List Char → Bool
  | [], _ => true
  | _ :: _, [] => false
  | a :: as, b :: bs => a = b && leadsEq as bs

/-- Tests whether the needle occurs contiguously inside the haystack. -/
def listHasSub (ndl : List Char) : List Char → Bool
  | [] => leadsEq ndl []
  | c :: rest => leadsEq ndl (c :: rest) || listHasSub ndl rest

/-- JS String.includes on strings. -/
def strContains (hay ndl : String) : Bool := listHasSub ndl.data hay.data

/-- The whitespace characters trimmed and split on by the widget. -/
def isJsSpace (c : Char) : Bool := c = ' ' || c = '\t' || c = '\n' || c = '\r'

/-- JS String.trim. -/
def jsTrim (s : String) : String :=
  String.mk (((s.data.dropWhile isJsSpace).reverse.dropWhile isJsSpace).reverse)

/-- Strips every leading "../" segment, reporting whether at least one
was stripped (the regex (\.\.\/)+ anchored at the start). -/
def stripDotDotRuns : List Char → List Char × Bool
  | '.' :: '.' :: '/' :: rest =>
      let p := stripDotDotRuns rest
      (p.1, true)
  | l => (l, false)

/-- Collapses a leading run of slashes to a single slash
(the regex ^\/+ replaced by "/"). -/
def collapseSlashes : List Char → List Char
  | '/' :: rest => '/' :: rest.dropWhile (fun c => c = '/')
  | l => l

/-- Prepends a slash unless the list already starts with one. -/
def ensureLeadingSlash : List Char → List Char
  | '/' :: rest => '/' :: rest
  | l => '/' :: l

/-- The widget's resolveImage helper: absolute http URLs pass through
unchanged; otherwise leading "../" runs become "/", leading slash runs
collapse, and a single leading slash is enforced. -/
def resolveImage (url : String) : String :=
  if url = "" then ""
  else if leadsEq ("http").data url.data then url
  else
    let p := stripDotDotRuns url.data
    let s1 := if p.2 then '/' :: p.1 else url.data
    String.mk (ensureLeadingSlash (collapseSlashes s1))

/-- JS String.toLowerCase restricted to the ASCII range, as used on
category labels. -/
def jsToLower (s : String) : String := String.mk (s.data.map Char.toLower)

/-- The widget's getCategoryIcon helper. -/
def getCategoryIcon (cat : Option String) : String :=
  let lower := jsToLower (cat.getD "")
  if strContains lower "kuchyn" then "🍳"
  else if strContains lower "realiz" then "🏠"
  else if strContains lower "nabytek" || strContains lower "nábytek" then "🪑"
  else if strContains lower "aktualn" then "📰"
  else if strContains lower "developer" then "🏗️"
  else "📄"

/-- Case-insensitive character comparison (the regex i flag). -/
def ciChar (a b : Char) : Bool := a.toLower = b.toLower

/-- Tests whether the word w matches case-insensitively at the head of s. -/
def ciLeads : List Char → List Char → Bool
  | [], _ => true
  | _ :: _, [] => false
  | a :: as, b :: bs => ciChar a b && ciLeads as bs

/-- First word of the ordered alternation matching at the head of s
(JS regex alternation tries alternatives left to right). -/
def firstMatch (ws : List (List Char)) (s : List Char) : Option (List Char) :=
  ws.find? (fun w => ciLeads w s)

/-- Fuel-indexed scanner for the global replace
escaped.replace(regex, "<mark>$1</mark>"): at each position the first
matching alternative is wrapped in mark tags (an empty match consumes
one character after emitting an empty pair, as the JS engine does). -/
def scanHiAux (ws : List (List Char)) : Nat → List Char → List Char
  | 0, _ => []
  | _ + 1, [] =>
    match firstMatch ws [] with
    | some _ => ("<mark></mark>").data
    | none => []
  | fuel + 1, c :: rest =>
    match firstMatch ws (c :: rest) with
    | some w =>
      if w = [] then ("<mark></mark>").data ++ c :: scanHiAux ws fuel rest
      else
        ("<mark>").data ++ (c :: rest).take w.length ++ ("</mark>").data
          ++ scanHiAux ws fuel ((c :: rest).drop w.length)
    | none => c :: scanHiAux ws fuel rest

/-- Runs the scanner with enough fuel for the whole subject string. -/
def scanHi (ws : List (List Char)) (s : List Char) : List Char :=
  scanHiAux ws (s.length + 1) s

/-- Splits a character list into maximal whitespace-free words. -/
def splitWsAux (acc : List Char) : List Char → List (List Char)
  | [] => if acc = [] then [] else [acc.reverse]
  | c :: rest =>
    if isJsSpace c then
      (if acc = [] then [] else [acc.reverse]) ++ splitWsAux [] rest
    else splitWsAux (c :: acc) rest

/-- query.trim().split(/\s+/): whitespace-delimited words of the
trimmed query; the empty trimmed string yields one empty word. -/
def splitQueryWords (q : String) : List (List Char) :=
  let t := jsTrim q
  if t.data = [] then [[]]
  else splitWsAux [] t.data

/-- The widget's highlightMatch helper: escape the text, then wrap
every case-insensitive occurrence of a query word in mark tags. -/
def highlightMatch (text query : String) : String :=
  String.mk (scanHi (splitQueryWords query) (escapeHtml text).data)

/-- JS truthiness of the optional image field (null and "" are falsy). -/
def imageTruthy (s : Suggestion) : Bool := (s.image.getD "") ≠ ""

/-- JS truthiness of the optional category field. -/
def categoryTruthy (s : Suggestion) : Bool := (s.category.getD "") ≠ ""

/-- JS Math.round: floor of x + 1/2 (half rounds toward positive infinity). -/
def jsRound (x : ℚ) : ℤ := (x + 1 / 2).floor

/-- JS Math.min on two integers. -/
def jsMin (a b : ℤ) : ℤ := if a ≤ b then a else b

/-- JS Math.max on two integers. -/
def jsMax (a b : ℤ) : ℤ := if b ≤ a then a else b

/-- The rendered percentage: Math.min(100, Math.round(score * 100))
when a score is present, nothing otherwise.  Note there is no lower
clamp in the source. -/
def pctOf (score : Option ℚ) : Option ℤ :=
  match score with
  | some sc => some (jsMin 100 (jsRound (sc * 100)))
  | none => none

/-- The score span of a result row (empty when the score is absent). -/
def scoreHtml (score : Option ℚ) : String :=
  match pctOf score with
  | some p => "<span class=\"hs-result-score\">" ++ toString p ++ "%</span>"
  | none => ""

/-- Interpolation segment for the data-url attribute (escaped in the source). -/
def dataUrlSeg (s : Suggestion) : String := escapeHtml s.url

/-- Interpolation segment for the data-title attribute (escaped in the source). -/
def dataTitleSeg (s : Suggestion) : String := escapeHtml s.title

/-- Interpolation segment for the data-image attribute (escaped in the source). -/
def dataImageSeg (s : Suggestion) : String :=
  if imageTruthy s then escapeHtml (resolveImage (s.image.getD "")) else ""

/-- Interpolation segment for the data-category attribute (escaped in the source). -/
def dataCategorySeg (s : Suggestion) : String := escapeHtml (s.category.getD "")

/-- Interpolation segment for the thumbnail img src: the source
interpolates resolveImage(s.image) without escapeHtml. -/
def thumbSrcSeg (s : Suggestion) : String := resolveImage (s.image.getD "")

/-- Interpolation segment for the result title (highlightMatch output). -/
def titleSeg (s : Suggestion) (q : String) : String := highlightMatch s.title q

/-- Interpolation segment for the escaped query in the empty-result
placeholder. -/
def emptyQuerySeg (q : String) : String := escapeHtml q

/-- The thumbnail cell of a result row.  The img branch carries the
raw resolved URL in its src attribute; the onerror fallback attribute
of the source is omitted here as it holds no interpolated data. -/
def thumbHtml (s : Suggestion) : String :=
  if imageTruthy s then
    "<img src=\"" ++ thumbSrcSeg s ++ "\" alt=\"\" loading=\"lazy\">"
  else
    "<span class=\"hs-result-thumb-icon\">" ++ getCategoryIcon s.category ++ "</span>"

/-- The optional category label of a result row. -/
def categoryLabelHtml (s : Suggestion) : String :=
  if categoryTruthy s then
    "<div class=\"hs-result-cat\">" ++ escapeHtml (s.category.getD "") ++ "</div>"
  else ""

/-- HTML of one result row as produced by renderSuggestions
(template whitespace and the static svg arrow are abbreviated). -/
def rowHtml (s : Suggestion) (q : String) : String :=
  "<div class=\"hs-result\" data-url=\"" ++ dataUrlSeg s
    ++ "\" data-title=\"" ++ dataTitleSeg s
    ++ "\" data-image=\"" ++ dataImageSeg s
    ++ "\" data-category=\"" ++ dataCategorySeg s ++ "\">"
    ++ "<div class=\"hs-result-thumb\">" ++ thumbHtml s ++ "</div>"
    ++ "<div class=\"hs-result-body\"><div class=\"hs-result-title\">" ++ titleSeg s q ++ "</div>"
    ++ categoryLabelHtml s ++ "</div>"
    ++ scoreHtml s.score
    ++ "<svg class=\"hs-result-arrow\"><path d=\"M9 18l6-6-6-6\"/></svg></div>"

/-- Dataset of one rendered result row as read back by the lightbox
code (dataset access decodes the escaped attribute values, so these
are the original resolved strings). -/
structure RowData where
  image : String
  title : String
  url : String
  category : String
deriving DecidableEq

/-- Interpolation segment for the lightbox title (escaped in the source). -/
def lbTitleSeg (it : RowData) : String := escapeHtml it.title

/-- Interpolation segment for the lightbox page link (escaped in the source). -/
def lbUrlSeg (it : RowData) : String := escapeHtml it.url

/-- Interpolation segment for the lightbox img src: the source
interpolates item.image without escapeHtml. -/
def lbImgSrcSeg (it : RowData) : String := it.image

/-- Inner HTML of the lightbox as built by renderCurrent (static svg
chrome abbreviated; prev/next buttons appear only at the flags). -/
def lightboxContentHtml (it : RowData) (idx total : Nat)
    (hasPrevB hasNextB : Bool) : String :=
  "<div class=\"hs-lightbox-content\">"
    ++ (if hasPrevB then "<button class=\"hs-lb-nav hs-lb-prev\"></button>" else "")
    ++ "<img class=\"hs-lightbox-img\" src=\"" ++ lbImgSrcSeg it
    ++ "\" alt=\"" ++ lbTitleSeg it ++ "\">"
    ++ (if hasNextB then "<button class=\"hs-lb-nav hs-lb-next\"></button>" else "")
    ++ "<div class=\"hs-lightbox-info\"><div class=\"hs-lightbox-title\">" ++ lbTitleSeg it
    ++ "</div><div class=\"hs-lightbox-meta\"><span class=\"hs-lb-counter\">"
    ++ toString (idx + 1) ++ " / " ++ toString total
    ++ "</span><a class=\"hs-lightbox-link\" href=\"" ++ lbUrlSeg it
    ++ "\" target=\"_blank\">Otevřít stránku →</a></div></div></div>"

/-- The three result-type filters, in object insertion order. -/
structure Filters where
  text : Bool
  image : Bool
  document : Bool
deriving DecidableEq

/-- JS Array.join(",") on a list of strings. -/
def joinComma : List String → String
  | [] => ""
  | [x] => x
  | x :: y :: rest => x ++ "," ++ joinComma (y :: rest)

/-- The types query parameter: comma-joined tags of the enabled
filters, in Object.entries insertion order. -/
def typesParam (f : Filters) : String :=
  joinComma
    ((if f.text then ["text"] else [])
      ++ (if f.image then ["image"] else [])
      ++ (if f.document then ["document"] else []))

/-- One suggest request as dispatched by fetchResults. -/
structure Request where
  q : String
  limit : Nat
  types : String
deriving DecidableEq

/-- Mutable widget state touched by the input, timer, filter and
fetch handlers. -/
structure UIState where
  inputValue : String
  resultsHtml : String
  hasResults : Bool
  activeIndex : Int
  footerTime : String
  filters : Filters
  debounce : Option String
  isOpen : Bool
deriving DecidableEq

/-- The loading spinner placeholder. -/
def loadingHtml : String :=
  "<div class=\"hs-loading\"><div class=\"hs-spinner\"></div></div>"

/-- The inline error placeholder of the fetch failure branch. -/
def errorHtml : String := "<div class=\"hs-empty\">Chyba při vyhledávání</div>"

/-- The empty-result placeholder with the escaped query interpolated. -/
def emptyHtml (q : String) : String :=
  "<div class=\"hs-empty\">Nic nenalezeno pro \"" ++ emptyQuerySeg q ++ "\"</div>"

/-- renderSuggestions: update the latency footer, then paint either
the empty placeholder or the joined result rows; both branches reset
the selection index to -1. -/
def renderSuggestionsFn (st : UIState) (data : SuggestResponse) : UIState :=
  let st1 := { st with footerTime := toString data.time_ms ++ " ms" }
  if data.suggestions.isEmpty then
    { st1 with resultsHtml := emptyHtml data.query, hasResults := true,
               activeIndex := -1 }
  else
    { st1 with activeIndex := -1, hasResults := true,
               resultsHtml :=
                 String.join (data.suggestions.map (fun s => rowHtml s data.query)) }

/-- fetchResults after the network settles: a successful response is
rendered; any fetch or parse failure falls into the catch branch,
which only swaps in the error placeholder.  The function is total, so
no exception escapes. -/
def fetchResultsStep (st : UIState) (outcome : Option SuggestResponse) : UIState :=
  match outcome with
  | some data => renderSuggestionsFn st data
  | none => { st with resultsHtml := errorHtml, hasResults := true }

/-- The input handler: clear any pending debounce timer; below
MIN_CHARS clear the list and reset the selection, otherwise show the
spinner and schedule the debounced fetch.  The second component lists
the requests dispatched synchronously by the handler (always none). -/
def onInput (st : UIState) (v : String) : UIState × List Request :=
  let st1 : UIState := { st with inputValue := v, debounce := none }
  let q := jsTrim st1.inputValue
  if q.length < MIN_CHARS then
    ({ st1 with resultsHtml := "", hasResults := false, activeIndex := -1 }, [])
  else
    ({ st1 with resultsHtml := loadingHtml, hasResults := true, debounce := some q }, [])

/-- The request fetchResults builds from the current filter state. -/
def mkRequest (st : UIState) (q : String) : Request :=
  ⟨q, MAX_SUGGESTIONS, typesParam st.filters⟩

/-- Expiry of the debounce timer: dispatch the captured query. -/
def timerFire (st : UIState) : UIState × List Request :=
  match st.debounce with
  | some q => ({ st with debounce := none }, [mkRequest st q])
  | none => (st, [])

/-- The three filter buttons. -/
inductive FilterType
  | text
  | image
  | document
deriving DecidableEq

/-- Toggling one filter flag. -/
def toggleF (f : Filters) : FilterType → Filters
  | .text => { f with text := !f.text }
  | .image => { f with image := !f.image }
  | .document => { f with document := !f.document }

/-- The filter click handler: flip the flag; when the current trimmed
query reaches MIN_CHARS, cancel the debounce timer and dispatch one
request immediately with the updated filter set. -/
def toggleFilter (st : UIState) (t : FilterType) : UIState × List Request :=
  let st1 : UIState := { st with filters := toggleF st.filters t }
  let q := jsTrim st1.inputValue
  if q.length ≥ MIN_CHARS then
    ({ st1 with debounce := none }, [mkRequest st1 q])
  else (st1, [])

/-- State of the request/response race: ids handed out so far, ids
still in flight, and the payload of the last render. -/
structure DispatchState where
  nextId : Nat
  inflight : List Nat
  rendered : Option SuggestResponse
deriving DecidableEq

/-- Dispatcher events: issue a request, or have an in-flight response
arrive.  fetchResults renders every arriving response unconditionally;
there is no sequence-number or token comparison in the source. -/
inductive DispatchEv
  | dispatch
  | arrive (id : Nat) (resp : SuggestResponse)

/-- One dispatcher step. -/
def dispatchStep (s : DispatchState) : DispatchEv → DispatchState
  | .dispatch =>
      { s with nextId := s.nextId + 1, inflight := s.nextId :: s.inflight }
  | .arrive id resp =>
      if id ∈ s.inflight then
        { s with inflight := s.inflight.erase id, rendered := some resp }
      else s

/-- Running the dispatcher from the initial state. -/
def dispatchRun (evs : List DispatchEv) : DispatchState :=
  evs.foldl dispatchStep ⟨0, [], none⟩

/-- The response left on screen according to arrival order: the last
valid arrival (an id already issued and not yet arrived) wins. -/
def lastValidArrival : Nat → List Nat → Option SuggestResponse →
    List DispatchEv → Option SuggestResponse
  | _, _, acc, [] => acc
  | n, done, acc, .dispatch :: tl => lastValidArrival (n + 1) done acc tl
  | n, done, acc, .arrive id r :: tl =>
      if id < n ∧ id ∉ done then lastValidArrival n (id :: done) (some r) tl
      else lastValidArrival n done acc tl

/-- Keyboard controller state: the selection index and the number of
currently rendered result rows. -/
structure KbdState where
  ai : Int
  n : Nat
deriving DecidableEq

/-- Keyboard controller events: a fresh render, or an arrow/enter key. -/
inductive KbdEv
  | render (data : SuggestResponse)
  | down
  | up
  | enter

/-- Result rows painted by a render: one per suggestion, none for the
empty placeholder. -/
def rowCount (data : SuggestResponse) : Nat := data.suggestions.length

/-- One keyboard controller step, as in onKeydown and
renderSuggestions: ArrowDown clamps at the last row, ArrowUp at -1,
Enter leaves the index alone, every render resets it to -1. -/
def kbdStep (s : KbdState) : KbdEv → KbdState
  | .render d => ⟨-1, rowCount d⟩
  | .down => ⟨jsMin (s.ai + 1) ((s.n : Int) - 1), s.n⟩
  | .up => ⟨jsMax (s.ai - 1) (-1), s.n⟩
  | .enter => s

/-- Running the keyboard controller from the initial state. -/
def kbdRun (evs : List KbdEv) : KbdState := evs.foldl kbdStep ⟨-1, 0⟩

/-- The selection-index invariant: within [-1, n-1]. -/
def KbdInv (s : KbdState) : Prop := -1 ≤ s.ai ∧ s.ai ≤ (s.n : Int) - 1

/-- The two timed panel transitions. -/
inductive TransKind
  | opening
  | closing
deriving DecidableEq

/-- Panel state machine state: the two guard flags of the source plus
the queue of scheduled transition-completion timers. -/
structure PanelState where
  isOpen : Bool
  isAnimating : Bool
  pending : List TransKind
deriving DecidableEq

/-- The open() entry: rejected while animating or already open;
otherwise raise the guard and schedule the opening completion. -/
def panelOpenFn (s : PanelState) : PanelState :=
  if s.isAnimating || s.isOpen then s
  else { s with isAnimating := true, pending := s.pending ++ [.opening] }

/-- The close() entry: rejected while animating or already closed;
otherwise raise the guard, leave the open steady state at once and
schedule the closing cleanup. -/
def panelCloseFn (s : PanelState) : PanelState :=
  if s.isAnimating || !s.isOpen then s
  else { isOpen := false, isAnimating := true, pending := s.pending ++ [.closing] }

/-- Completion of the earliest scheduled transition timer. -/
def panelFire (s : PanelState) : PanelState :=
  match s.pending with
  | [] => s
  | .opening :: rest => { isOpen := true, isAnimating := false, pending := rest }
  | .closing :: rest => { s with isAnimating := false, pending := rest }

/-- Panel events. -/
inductive PanelEv
  | openReq
  | closeReq
  | timer
deriving DecidableEq

/-- One panel step. -/
def panelStep (s : PanelState) : PanelEv → PanelState
  | .openReq => panelOpenFn s
  | .closeReq => panelCloseFn s
  | .timer => panelFire s

/-- Running the panel machine from the closed idle state. -/
def panelRun (evs : List PanelEv) : PanelState :=
  evs.foldl panelStep ⟨false, false, []⟩

/-- The panel invariant: at most one transition timer is outstanding,
and the guard flag is raised exactly while one is. -/
def PanelInv (s : PanelState) : Prop :=
  s.pending.length ≤ 1 ∧ (s.isAnimating = true ↔ s.pending ≠ [])

/-- The exact attribute selector of getImageResults. -/
def imageCategoryLabel : String := "Obrázek"

/-- getImageResults: rows whose data-category attribute is exactly
"Obrázek" and whose image is non-empty, in render order. -/
def getImageResults (rows : List RowData) : List RowData :=
  (rows.filter (fun r => r.category = imageCategoryLabel)).filter
    (fun r => r.image ≠ "")

/-- The eligibility test of handleResultClick: the lowercased category
is the image label with or without the accent. -/
def isImageCategory (cat : String) : Bool :=
  jsToLower cat = "obrázek" || jsToLower cat = "obrazek"

/-- handleResultClick routes to the lightbox exactly for this test. -/
def isImageClick (r : RowData) : Bool := isImageCategory r.category && r.image ≠ ""

/-- JS Array.findIndex folded to the openLightbox default: index of
the first hit, 0 when there is none. -/
def findIdxAux (p : RowData → Bool) : List RowData → Option Nat
  | [] => none
  | r :: rest => if p r then some 0 else (findIdxAux p rest).map (· + 1)

/-- Lightbox carousel state. -/
structure LightboxState where
  images : List RowData
  currentIdx : Nat
deriving DecidableEq

/-- Starting index of the lightbox: the activated image located in
the collected subset, or 0 when findIndex misses. -/
def lightboxStartIdx (rows : List RowData) (imageSrc : String) : Nat :=
  match findIdxAux (fun r => r.image = imageSrc) (getImageResults rows) with
  | some i => i
  | none => 0

/-- openLightbox: collect the image rows, locate the activated source
among them, defaulting to 0 when it is absent. -/
def lightboxInit (rows : List RowData) (imageSrc : String) : LightboxState :=
  ⟨getImageResults rows, lightboxStartIdx rows imageSrc⟩

/-- navigate(delta): move only when the target stays inside
[0, images.length). -/
def navigate (s : LightboxState) (delta : Int) : LightboxState :=
  if 0 ≤ (s.currentIdx : Int) + delta ∧
      (s.currentIdx : Int) + delta < (s.images.length : Int) then
    { s with currentIdx := ((s.currentIdx : Int) + delta).toNat }
  else s

/-- Lightbox navigation events: the prev/next controls and the
ArrowLeft/ArrowRight keys all call navigate with the same deltas. -/
inductive NavEv
  | prev
  | next
deriving DecidableEq

/-- One navigation step. -/
def navStep (s : LightboxState) : NavEv → LightboxState
  | .prev => navigate s (-1)
  | .next => navigate s 1

/-- Running a navigation sequence. -/
def navRun (s : LightboxState) (evs : List NavEv) : LightboxState :=
  evs.foldl navStep s

/-- renderCurrent shows the prev control exactly when currentIdx > 0. -/
def hasPrevCtl (s : LightboxState) : Bool := decide (0 < s.currentIdx)

/-- renderCurrent shows the next control exactly when
currentIdx < images.length - 1. -/
def hasNextCtl (s : LightboxState) : Bool :=
  decide ((s.currentIdx : Int) < (s.images.length : Int) - 1)

/-- Combined widget state for the panel/lightbox interaction: the
panel flags, whether the lightbox capture-phase key listener is
attached, whether the lightbox element is still in the DOM, and
whether it carries its active (visible) class. -/
structure WidgetState where
  isOpen : Bool
  isAnimating : Bool
  lbListener : Bool
  lbInDom : Bool
  lbActive : Bool
deriving DecidableEq

/-- close() projected onto the combined state. -/
def panelCloseW (s : WidgetState) : WidgetState :=
  if s.isAnimating || !s.isOpen then s
  else { s with isOpen := false, isAnimating := true }

/-- closeLb: start the fade-out and detach the capture listener; the
element itself is removed later by a timer, so it stays in the DOM. -/
def closeLbFn (s : WidgetState) : WidgetState :=
  { s with lbListener := false, lbActive := false }

/-- Dispatch of an Escape keydown on the document.  The lightbox
keyHandler is registered in the capture phase, so it runs before the
panel input handler and its stopPropagation keeps the event from ever
reaching onKeydown; without the lightbox the keystroke reaches
onKeydown, which calls close().  The boolean reports whether the
panel keyboard controller reacted. -/
def escapeDispatch (s : WidgetState) : WidgetState × Bool :=
  if s.lbListener then (closeLbFn s, false)
  else (panelCloseW s, true)

/-- The document-level outside-click handler: while a lightbox element
is in the DOM the close is suppressed. -/
def outsideClickDispatch (s : WidgetState) : WidgetState :=
  if s.isOpen then (if s.lbInDom then s else panelCloseW s) else s

/-- A click outside the panel while the lightbox overlay covers the
page: the lightbox backdrop handler closes the lightbox, then the
event bubbles to the document handler, which still sees the fading
element in the DOM. -/
def backdropClickDispatch (s : WidgetState) : WidgetState :=
  let s1 := if s.lbListener then closeLbFn s else s
  outsideClickDispatch s1

/-- The percentage the spec describes: score*100 clamped to [0,100]
and rounded. -/
def pctSpecClamp (score : ℚ) : ℤ := jsMin 100 (jsMax 0 (jsRound (score * 100)))

/-- Bool test that a character list carries no markup delimiters. -/
def angleFreeB (l : List Char) : Bool :=
  l.all (fun c => c ≠ '<' && c ≠ '>')

/-- A string is angle-free when none of its characters is a markup
delimiter. -/
def angleFree (s : String) : Prop := angleFreeB s.data = true

/-- Strings consisting of angle-free text and well-formed mark-tag
wrappers around angle-free content: the shape of a safely highlighted
title. -/
inductive MarkSafe : List Char → Prop where
  | nil : MarkSafe []
  | chr {c : Char} {l : List Char} :
      c ≠ '<' → c ≠ '>' → MarkSafe l → MarkSafe (c :: l)
  | mark {m l : List Char} :
      angleFreeB m = true → MarkSafe l →
      MarkSafe (("<mark>").data ++ m ++ ("</mark>").data ++ l)

/-- A response used to instantiate race traces. -/
def respA : SuggestResponse := ⟨"ab", 5, []⟩

/-- A second, distinct response used to instantiate race traces. -/
def respB : SuggestResponse := ⟨"ac", 7, []⟩

/-- Two requests are dispatched, the later one's response arrives
first, the earlier one's response arrives second. -/
def raceTrace : List DispatchEv :=
  [.dispatch, .dispatch, .arrive 1 respB, .arrive 0 respA]

/-- A rendered row whose category matches the image label only
case-insensitively, not the exact collection selector. -/
def cexRow : RowData := ⟨"/img.jpg", "T", "/u", "obrazek"⟩

/-- A suggestion whose image URL carries markup. -/
def cexSuggestion : Suggestion :=
  ⟨"Stul", "https://x/p", some "http://e/<script>", some "Obrázek", none⟩

/-- Two well-formed image rows for witness instantiations. -/
def rowsTwo : List RowData :=
  [⟨"/a.jpg", "T", "/u", "Obrázek"⟩, ⟨"/b.jpg", "U", "/v", "Obrázek"⟩]

theorem escapeChar_angleFree (c : Char) : angleFreeB (escapeChar c).data = true := by
  unfold escapeChar
  split
  · decide
  · split
    · decide
    · split
      · decide
      · rename_i h1 h2 h3
        simp [angleFreeB, String.singleton, h2, h3]

theorem angleFreeB_append (a b : List Char) :
    angleFreeB (a ++ b) = (angleFreeB a && angleFreeB b) := by
  simp [angleFreeB]

theorem escapeList_angleFree (l : List Char) : angleFreeB (escapeList l) = true := by
  induction l with
  | nil => rfl
  | cons c rest ih =>
    rw [escapeList, angleFreeB_append, escapeChar_angleFree c, ih]
    rfl

theorem escapeHtml_angleFree (s : String) : angleFree (escapeHtml s) :=
  escapeList_angleFree s.data

theorem angleFreeB_mem (l : List Char) (h : angleFreeB l = true) :
    ∀ c ∈ l, c ≠ '<' ∧ c ≠ '>' := by
  intro c hc
  simp only [angleFreeB, List.all_eq_true] at h
  have := h c hc
  simp only [Bool.and_eq_true, decide_eq_true_eq] at this
  exact this

theorem angleFreeB_of_mem (l : List Char) (h : ∀ c ∈ l, c ≠ '<' ∧ c ≠ '>') :
    angleFreeB l = true := by
  simp only [angleFreeB, List.all_eq_true]
  intro c hc
  simp only [Bool.and_eq_true, decide_eq_true_eq]
  exact h c hc

theorem angleFreeB_take (l : List Char) (n : Nat) (h : angleFreeB l = true) :
    angleFreeB (l.take n) = true :=
  angleFreeB_of_mem _ (fun c hc => angleFreeB_mem l h c (List.take_subset n l hc))

theorem angleFreeB_drop (l : List Char) (n : Nat) (h : angleFreeB l = true) :
    angleFreeB (l.drop n) = true :=
  angleFreeB_of_mem _ (fun c hc => angleFreeB_mem l h c (List.drop_subset n l hc))

theorem mark_pair_shape (t : List Char) :
    ("<mark></mark>").data ++ t
      = ("<mark>").data ++ ([] : List Char) ++ ("</mark>").data ++ t := rfl

theorem scanHiAux_markSafe (ws : List (List Char)) :
    ∀ (fuel : Nat) (s : List Char), angleFreeB s = true →
      MarkSafe (scanHiAux ws fuel s) := by
  intro fuel
  induction fuel with
  | zero => intro s _; exact MarkSafe.nil
  | succ fuel ih =>
    intro s hs
    match s with
    | [] =>
      simp only [scanHiAux]
      cases hfm : firstMatch ws [] with
      | some w =>
        have hshape : MarkSafe (("<mark>").data ++ ([] : List Char)
            ++ ("</mark>").data ++ ([] : List Char)) :=
          MarkSafe.mark rfl MarkSafe.nil
        exact hshape
      | none => exact MarkSafe.nil
    | c :: rest =>
      have hc : c ≠ '<' ∧ c ≠ '>' := angleFreeB_mem _ hs c (List.mem_cons_self c rest)
      have hrest : angleFreeB rest = true :=
        angleFreeB_of_mem _ (fun x hx => angleFreeB_mem _ hs x (List.mem_cons_of_mem c hx))
      simp only [scanHiAux]
      cases hfm : firstMatch ws (c :: rest) with
      | some w =>
        by_cases hw : w = []
        · simp only [hw, if_true]
          rw [mark_pair_shape]
          exact MarkSafe.mark rfl (MarkSafe.chr hc.1 hc.2 (ih rest hrest))
        · simp only [hw, if_false]
          exact MarkSafe.mark (angleFreeB_take _ _ hs)
            (ih _ (angleFreeB_drop _ _ hs))
      | none =>
        exact MarkSafe.chr hc.1 hc.2 (ih rest hrest)

theorem highlightMatch_markSafe (t q : String) : MarkSafe (highlightMatch t q).data :=
  scanHiAux_markSafe (splitQueryWords q) ((escapeHtml t).data.length + 1)
    (escapeHtml t).data (escapeList_angleFree t.data)

theorem jsRound_eq_intFloor (x : ℚ) : jsRound x = ⌊x + 1 / 2⌋ := by
  rw [jsRound, Rat.floor_def', ← Rat.floor_def]

/-- The dispatcher invariant tying the machine state to an issue count
and the list of already-arrived ids. -/
def DInv (s : DispatchState) (n : Nat) (done : List Nat) : Prop :=
  s.nextId = n ∧ s.inflight.Nodup ∧ (∀ j ∈ done, j < n)
    ∧ (∀ j, j ∈ s.inflight ↔ (j < n ∧ j ∉ done))

theorem dInv_dispatch {s : DispatchState} {n : Nat} {done : List Nat}
    (h : DInv s n done) : DInv (dispatchStep s .dispatch) (n + 1) done := by
  obtain ⟨hn, hnd, hdone, hiff⟩ := h
  refine ⟨by simp [dispatchStep, hn], ?_, fun j hj => Nat.lt_succ_of_lt (hdone j hj), ?_⟩
  · show (s.nextId :: s.inflight).Nodup
    refine List.Nodup.cons (fun hc => ?_) hnd
    have h2 := ((hiff s.nextId).mp hc).1
    omega
  · intro j
    show j ∈ s.nextId :: s.inflight ↔ _
    simp only [List.mem_cons, hiff j, hn]
    constructor
    · rintro (rfl | ⟨hj, hjd⟩)
      · exact ⟨Nat.lt_succ_self _, fun hc => absurd (hdone _ hc) (lt_irrefl _)⟩
      · exact ⟨Nat.lt_succ_of_lt hj, hjd⟩
    · rintro ⟨hj, hjd⟩
      rcases Nat.lt_succ_iff_lt_or_eq.mp hj with h' | rfl
      · exact Or.inr ⟨h', hjd⟩
      · exact Or.inl rfl

theorem dInv_arrive_mem {s : DispatchState} {n : Nat} {done : List Nat}
    {id : Nat} {r : SuggestResponse} (h : DInv s n done) (hm : id ∈ s.inflight) :
    DInv (dispatchStep s (.arrive id r)) n (id :: done) := by
  obtain ⟨hn, hnd, hdone, hiff⟩ := h
  have hid := (hiff id).mp hm
  simp only [dispatchStep, if_pos hm]
  refine ⟨hn, hnd.erase id, ?_, ?_⟩
  · intro j hj
    rcases List.mem_cons.mp hj with rfl | hj'
    · exact hid.1
    · exact hdone j hj'
  · intro j
    rw [hnd.mem_erase_iff, hiff j]
    constructor
    · rintro ⟨hne, hj, hjd⟩
      exact ⟨hj, fun hc => (List.mem_cons.mp hc).elim hne hjd⟩
    · rintro ⟨hj, hjd⟩
      exact ⟨fun he => hjd (he ▸ List.mem_cons_self id done),
             hj, fun hc => hjd (List.mem_cons_of_mem id hc)⟩

theorem dInv_arrive_notmem {s : DispatchState} {n : Nat} {done : List Nat}
    {id : Nat} {r : SuggestResponse} (h : DInv s n done) (hm : id ∉ s.inflight) :
    DInv (dispatchStep s (.arrive id r)) n done := by
  simpa only [dispatchStep, if_neg hm] using h

theorem dispatch_refines :
    ∀ (evs : List DispatchEv) (s : DispatchState) (n : Nat) (done : List Nat),
      DInv s n done →
      (evs.foldl dispatchStep s).rendered = lastValidArrival n done s.rendered evs := by
  intro evs
  induction evs with
  | nil => intro s n done _; rfl
  | cons e tl ih =>
    intro s n done h
    cases e with
    | dispatch =>
      simp only [List.foldl_cons, lastValidArrival]
      exact ih _ _ _ (dInv_dispatch h)
    | arrive id r =>
      by_cases hm : id ∈ s.inflight
      · have hcond : id < n ∧ id ∉ done := (h.2.2.2 id).mp hm
        simp only [List.foldl_cons, lastValidArrival]
        rw [if_pos hcond]
        have hrest := ih _ _ _ (dInv_arrive_mem (r := r) h hm)
        have hr : (dispatchStep s (.arrive id r)).rendered = some r := by
          simp [dispatchStep, if_pos hm]
        rw [hr] at hrest
        exact hrest
      · have hcond : ¬(id < n ∧ id ∉ done) := fun hc => hm ((h.2.2.2 id).mpr hc)
        simp only [List.foldl_cons, lastValidArrival]
        rw [if_neg hcond]
        have hr : dispatchStep s (.arrive id r) = s := by
          simp [dispatchStep, if_neg hm]
        rw [hr]
        exact ih _ _ _ h

theorem kbdStep_inv (s : KbdState) (e : KbdEv) (h : KbdInv s) :
    KbdInv (kbdStep s e) := by
  cases e with
  | render d =>
    constructor
    · exact le_refl (-1)
    · show (-1 : Int) ≤ (rowCount d : Int) - 1
      omega
  | down =>
    simp only [kbdStep, KbdInv, jsMin] at h ⊢
    split <;> omega
  | up =>
    simp only [kbdStep, KbdInv, jsMax] at h ⊢
    split <;> omega
  | enter => exact h

theorem kbdFold_inv (evs : List KbdEv) :
    ∀ s : KbdState, KbdInv s → KbdInv (evs.foldl kbdStep s) := by
  induction evs with
  | nil => exact fun s h => h
  | cons e tl ih => exact fun s h => ih _ (kbdStep_inv s e h)

theorem panelStep_inv (s : PanelState) (e : PanelEv) (h : PanelInv s) :
    PanelInv (panelStep s e) := by
  obtain ⟨hlen, hiff⟩ := h
  cases e with
  | openReq =>
    simp only [panelStep, panelOpenFn]
    split
    · exact ⟨hlen, hiff⟩
    · rename_i hcond
      have hanim : s.isAnimating = false := by
        revert hcond; cases s.isAnimating <;> simp
      have hpend : s.pending = [] := by
        by_contra hne
        rw [hanim] at hiff
        exact absurd (hiff.mpr hne) (by simp)
      refine ⟨by simp [hpend], by simp [hpend]⟩
  | closeReq =>
    simp only [panelStep, panelCloseFn]
    split
    · exact ⟨hlen, hiff⟩
    · rename_i hcond
      have hanim : s.isAnimating = false := by
        revert hcond; cases s.isAnimating <;> simp
      have hpend : s.pending = [] := by
        by_contra hne
        rw [hanim] at hiff
        exact absurd (hiff.mpr hne) (by simp)
      refine ⟨by simp [hpend], by simp [hpend]⟩
  | timer =>
    show PanelInv (panelFire s)
    rcases hp : s.pending with _ | ⟨k, rest⟩
    · have heq : panelFire s = s := by unfold panelFire; rw [hp]
      rw [heq]
      exact ⟨hlen, hiff⟩
    · have hrest : rest = [] := by
        rw [hp] at hlen
        simp only [List.length_cons] at hlen
        exact List.eq_nil_of_length_eq_zero (by omega)
      subst hrest
      cases k
      · have heq : panelFire s = ⟨true, false, []⟩ := by unfold panelFire; rw [hp]
        rw [heq]
        exact ⟨by simp, by simp⟩
      · have heq : panelFire s = ⟨s.isOpen, false, []⟩ := by unfold panelFire; rw [hp]
        rw [heq]
        exact ⟨by simp, by simp⟩

theorem panelFold_inv (evs : List PanelEv) :
    ∀ s : PanelState, PanelInv s → PanelInv (evs.foldl panelStep s) := by
  induction evs with
  | nil => exact fun s h => h
  | cons e tl ih => exact fun s h => ih _ (panelStep_inv s e h)

theorem findIdxAux_lt_length (p : RowData → Bool) :
    ∀ (l : List RowData) (i : Nat), findIdxAux p l = some i → i < l.length := by
  intro l
  induction l with
  | nil => intro i h; exact absurd h (by simp [findIdxAux])
  | cons r rest ih =>
    intro i h
    simp only [findIdxAux] at h
    split at h
    · cases h; simp
    · rcases hr : findIdxAux p rest with _ | j
      · rw [hr] at h; cases h
      · rw [hr] at h
        simp only [Option.map] at h
        injection h with h2
        subst h2
        have := ih j hr
        simp only [List.length_cons]
        omega

theorem navigate_pres (s : LightboxState) (d : Int) :
    (navigate s d).images = s.images
    ∧ (s.currentIdx < s.images.length →
        (navigate s d).currentIdx < s.images.length)
    ∧ (s.images.length = 0 → (navigate s d).currentIdx = s.currentIdx) := by
  unfold navigate
  split
  · rename_i hcond
    refine ⟨rfl, fun _ => ?_, fun h0 => ?_⟩
    · have h1 := hcond.1
      have h2 := hcond.2
      simp only
      omega
    · exfalso
      have h1 := hcond.1
      have h2 := hcond.2
      rw [h0] at h2
      omega
  · exact ⟨rfl, fun h => h, fun _ => rfl⟩

theorem navFold_pres (evs : List NavEv) : ∀ s : LightboxState,
    (navRun s evs).images = s.images
    ∧ (s.currentIdx < s.images.length →
        (navRun s evs).currentIdx < s.images.length)
    ∧ (s.images.length = 0 → (navRun s evs).currentIdx = s.currentIdx) := by
  induction evs with
  | nil => exact fun s => ⟨rfl, fun h => h, fun _ => rfl⟩
  | cons e tl ih =>
    intro s
    have hstep : (navStep s e).images = s.images
        ∧ (s.currentIdx < s.images.length →
            (navStep s e).currentIdx < s.images.length)
        ∧ (s.images.length = 0 → (navStep s e).currentIdx = s.currentIdx) := by
      cases e
      · exact navigate_pres s (-1)
      · exact navigate_pres s 1
    obtain ⟨hsi, hsb, hs0⟩ := hstep
    obtain ⟨hti, htb, ht0⟩ := ih (navStep s e)
    refine ⟨hti.trans hsi, fun hb => ?_, fun h0 => ?_⟩
    · have hb2 : (navStep s e).currentIdx < (navStep s e).images.length := by
        rw [hsi]; exact hsb hb
      have := htb hb2
      rw [hsi] at this
      exact this
    · have h02 : (navStep s e).images.length = 0 := by rw [hsi]; exact h0
      show (navRun (navStep s e) tl).currentIdx = s.currentIdx
      rw [ht0 h02, hs0 h0]

theorem lightboxStartIdx_spec (rows : List RowData) (src : String) :
    ((getImageResults rows).length ≠ 0 →
      lightboxStartIdx rows src < (getImageResults rows).length)
    ∧ ((getImageResults rows).length = 0 → lightboxStartIdx rows src = 0) := by
  unfold lightboxStartIdx
  rcases hf : findIdxAux (fun r => r.image = src) (getImageResults rows) with _ | i
  · exact ⟨fun h => Nat.pos_of_ne_zero h, fun _ => rfl⟩
  · have hlt := findIdxAux_lt_length _ _ i hf
    exact ⟨fun _ => hlt, fun h0 => by omega⟩

/-- C1 counterexample: two requests are dispatched; the response of the
later request (id 1) arrives first, then the response of the earlier,
superseded request (id 0) arrives.  fetchResults renders every arriving
response, so the final rendered state is the superseded response respA,
not respB as the claim requires. -/
theorem race_counterexample :
    (dispatchRun raceTrace).rendered = some respA
    ∧ (dispatchRun raceTrace).rendered ≠ some respB
    ∧ respA ≠ respB := by
  refine ⟨by decide, by decide, by decide⟩

/-- C1 amended: the rendered result list reflects the response that was
processed last in arrival order — the last valid arrival wins — rather
than the response of the most recently dispatched request; a superseded
request's response is not discarded and overwrites the UI when it
arrives after a newer response. -/
theorem rendered_is_last_arrival (evs : List DispatchEv) :
    (dispatchRun evs).rendered = lastValidArrival 0 [] none evs := by
  have h0 : DInv ⟨0, [], none⟩ 0 [] := by
    refine ⟨rfl, List.nodup_nil, fun j hj => absurd hj (List.not_mem_nil j), fun j => ?_⟩
    constructor
    · intro hj; exact absurd hj (List.not_mem_nil j)
    · rintro ⟨hj, _⟩; omega
  exact dispatch_refines evs ⟨0, [], none⟩ 0 [] h0

/-- C2: for every input value whose trimmed length is below MIN_CHARS,
the input handler clears the result list, hides the results panel,
resets the selection index to -1, cancels any pending debounce timer,
leaves everything else unchanged, and dispatches no request. -/
theorem onInput_short_clears (st : UIState) (v : String)
    (h : (jsTrim v).length < MIN_CHARS) :
    onInput st v =
      ({ st with inputValue := v, debounce := none, resultsHtml := "",
                 hasResults := false, activeIndex := -1 }, []) := by
  simp [onInput, h]

/-- Witness for the C2 theorem at a one-character input. -/
theorem onInput_short_clears_witness :
    onInput ⟨"ab", "old", true, 3, "9 ms", ⟨true, true, false⟩, some "ab", true⟩ "a"
      = (⟨"a", "", false, -1, "9 ms", ⟨true, true, false⟩, none, true⟩, []) :=
  onInput_short_clears ⟨"ab", "old", true, 3, "9 ms", ⟨true, true, false⟩, some "ab", true⟩
    "a" (by decide)

/-- C3 counterexample: a suggestion whose image URL carries markup.
The raw string appears verbatim inside the rendered row (through the
thumbnail src) and inside the lightbox content, whereas the escaped
form of the same URL would carry none of it; the thumbnail src segment
differs from its escaped form, so this interpolation point is not
HTML-escaped. -/
theorem image_src_unescaped_counterexample :
    strContains (rowHtml cexSuggestion "st") "<script>" = true
    ∧ strContains (escapeHtml "http://e/<script>") "<script>" = false
    ∧ thumbSrcSeg cexSuggestion ≠ escapeHtml (thumbSrcSeg cexSuggestion)
    ∧ strContains
        (lightboxContentHtml ⟨"http://e/<script>", "T", "/u", "Obrázek"⟩ 0 1 false false)
        "<script>" = true := by
  refine ⟨by decide, by decide, by decide, by decide⟩

/-- C3 amended: the title, url, category and query fields are
HTML-escaped at every interpolation point of the result row, the
empty-result placeholder and the lightbox (the title through
highlightMatch, whose output consists of angle-free text and
well-formed mark wrappers around angle-free content), but the image
URL is interpolated into the result-row thumbnail src and the lightbox
img src without escaping. -/
theorem interpolation_escaping_amended (s : Suggestion) (q : String) (it : RowData) :
    angleFree (dataUrlSeg s) ∧ angleFree (dataTitleSeg s)
    ∧ angleFree (dataImageSeg s) ∧ angleFree (dataCategorySeg s)
    ∧ angleFree (emptyQuerySeg q) ∧ MarkSafe (titleSeg s q).data
    ∧ angleFree (lbTitleSeg it) ∧ angleFree (lbUrlSeg it) := by
  refine ⟨escapeHtml_angleFree _, escapeHtml_angleFree _, ?_, escapeHtml_angleFree _,
    escapeHtml_angleFree _, highlightMatch_markSafe _ _,
    escapeHtml_angleFree _, escapeHtml_angleFree _⟩
  unfold dataImageSeg
  split
  · exact escapeHtml_angleFree _
  · exact rfl

/-- C4: starting from the initial state, after any sequence of renders
and ArrowUp/ArrowDown/Enter key events the selection index lies in
[-1, n-1] for the current row count n, and it is -1 immediately after
any further render, the empty-result render included. -/
theorem selection_index_invariant (evs : List KbdEv) :
    KbdInv (kbdRun evs)
    ∧ ∀ d : SuggestResponse, (kbdStep (kbdRun evs) (.render d)).ai = -1 := by
  refine ⟨kbdFold_inv evs ⟨-1, 0⟩ ⟨by decide, by decide⟩, fun d => rfl⟩

/-- C5: in every reachable panel state at most one transition timer is
outstanding, open() is a no-op while a transition is in flight or the
panel is already open, and close() is a no-op while a transition is in
flight or the panel is already closed. -/
theorem panel_single_transition :
    (∀ evs : List PanelEv, (panelRun evs).pending.length ≤ 1)
    ∧ (∀ s : PanelState, (s.isAnimating || s.isOpen) = true → panelOpenFn s = s)
    ∧ (∀ s : PanelState, (s.isAnimating || !s.isOpen) = true → panelCloseFn s = s) := by
  refine ⟨fun evs => (panelFold_inv evs ⟨false, false, []⟩ ⟨by decide, by decide⟩).1,
    fun s h => ?_, fun s h => ?_⟩
  · simp [panelOpenFn, h]
  · simp [panelCloseFn, h]

/-- Witness for the C5 theorem: a run with two immediate open calls
keeps at most one pending transition, an open() on an already-open
panel and a close() during an animation are both no-ops. -/
theorem panel_single_transition_witness :
    (panelRun [.openReq, .openReq, .timer, .closeReq]).pending.length ≤ 1
    ∧ panelOpenFn ⟨true, false, []⟩ = ⟨true, false, []⟩
    ∧ panelCloseFn ⟨true, true, [.opening]⟩ = ⟨true, true, [.opening]⟩ :=
  ⟨panel_single_transition.1 [.openReq, .openReq, .timer, .closeReq],
   panel_single_transition.2.1 ⟨true, false, []⟩ (by decide),
   panel_single_transition.2.2 ⟨true, true, [.opening]⟩ (by decide)⟩

/-- C6 counterexample: a rendered row with category "obrazek" (no
diacritic) and a non-empty image is routed to the lightbox by
handleResultClick, yet getImageResults collects nothing because its
selector matches the exact label "Obrázek"; the lightbox then opens
over k = 0 collected images with currentIndex 0, which lies outside
[0, k-1]. -/
theorem lightbox_empty_counterexample :
    isImageClick cexRow = true
    ∧ (lightboxInit [cexRow] "/img.jpg").images.length = 0
    ∧ (lightboxInit [cexRow] "/img.jpg").currentIdx = 0
    ∧ ¬ (((lightboxInit [cexRow] "/img.jpg").currentIdx : Int)
          ≤ ((lightboxInit [cexRow] "/img.jpg").images.length : Int) - 1) := by
  refine ⟨by decide, by decide, by decide, by decide⟩

/-- C6 amended: the collected image subset never changes during
navigation; when it is nonempty (k ≥ 1), currentIndex stays within
[0, k-1] under every prev/next (ArrowLeft/ArrowRight) sequence, the
prev control is absent at index 0 and the next control is absent at
index k-1; when the collected subset is empty — possible because
handleResultClick matches the category case-insensitively while
getImageResults requires the exact label "Obrázek" — currentIndex
stays 0. -/
theorem lightbox_index_invariant (rows : List RowData) (src : String) (navs : List NavEv) :
    (navRun (lightboxInit rows src) navs).images = getImageResults rows
    ∧ (1 ≤ (getImageResults rows).length →
        (navRun (lightboxInit rows src) navs).currentIdx < (getImageResults rows).length)
    ∧ ((getImageResults rows).length = 0 →
        (navRun (lightboxInit rows src) navs).currentIdx = 0)
    ∧ ((navRun (lightboxInit rows src) navs).currentIdx = 0 →
        hasPrevCtl (navRun (lightboxInit rows src) navs) = false)
    ∧ (((navRun (lightboxInit rows src) navs).currentIdx : Int)
          = ((navRun (lightboxInit rows src) navs).images.length : Int) - 1 →
        hasNextCtl (navRun (lightboxInit rows src) navs) = false) := by
  obtain ⟨hni, hnb, hn0⟩ := navFold_pres navs (lightboxInit rows src)
  obtain ⟨hsb, hs0⟩ := lightboxStartIdx_spec rows src
  have himg : (lightboxInit rows src).images = getImageResults rows := rfl
  refine ⟨hni.trans himg, fun hk => ?_, fun h0 => ?_, fun hz => ?_, fun he => ?_⟩
  · have hb : (lightboxInit rows src).currentIdx < (lightboxInit rows src).images.length := by
      show lightboxStartIdx rows src < (getImageResults rows).length
      exact hsb (by omega)
    have := hnb hb
    exact this
  · have h02 : (lightboxInit rows src).images.length = 0 := h0
    rw [hn0 h02]
    exact hs0 h0
  · simp [hasPrevCtl, hz]
  · simp only [hasNextCtl, he]
    simp

/-- Witness for the C6 theorem over two collected images: after two
next activations the index is still below the subset length, and at
the initial index 0 the prev control is absent. -/
theorem lightbox_index_invariant_witness :
    (navRun (lightboxInit rowsTwo "/a.jpg") [.next, .next]).currentIdx
      < (getImageResults rowsTwo).length
    ∧ hasPrevCtl (navRun (lightboxInit rowsTwo "/a.jpg") []) = false :=
  ⟨(lightbox_index_invariant rowsTwo "/a.jpg" [.next, .next]).2.1 (by decide),
   (lightbox_index_invariant rowsTwo "/a.jpg" []).2.2.2.1 (by decide)⟩

/-- C7: while the panel is open with an active lightbox, an Escape
keydown is consumed by the lightbox capture-phase handler — the
lightbox fades out and detaches its listener, the panel stays open
with its animation flag untouched, and the panel keyboard controller
never reacts; an outside click likewise closes only the lightbox
because the document click handler sees the lightbox element still in the
DOM and returns without calling close(). -/
theorem lightbox_escape_isolation (s : WidgetState)
    (ho : s.isOpen = true) (hl : s.lbListener = true) (hd : s.lbInDom = true) :
    (escapeDispatch s).1.isOpen = true
    ∧ (escapeDispatch s).1.isAnimating = s.isAnimating
    ∧ (escapeDispatch s).1.lbActive = false
    ∧ (escapeDispatch s).1.lbListener = false
    ∧ (escapeDispatch s).2 = false
    ∧ (backdropClickDispatch s).isOpen = true
    ∧ (backdropClickDispatch s).lbActive = false
    ∧ (backdropClickDispatch s).lbListener = false := by
  simp [escapeDispatch, closeLbFn, backdropClickDispatch, outsideClickDispatch, ho, hl, hd]

/-- Witness for the C7 theorem at a concrete open-panel state with an
active lightbox. -/
theorem lightbox_escape_isolation_witness :
    (escapeDispatch ⟨true, false, true, true, true⟩).1.isOpen = true
    ∧ (escapeDispatch ⟨true, false, true, true, true⟩).2 = false
    ∧ (backdropClickDispatch ⟨true, false, true, true, true⟩).isOpen = true :=
  ⟨(lightbox_escape_isolation ⟨true, false, true, true, true⟩ rfl rfl rfl).1,
   (lightbox_escape_isolation ⟨true, false, true, true, true⟩ rfl rfl rfl).2.2.2.2.1,
   (lightbox_escape_isolation ⟨true, false, true, true, true⟩ rfl rfl rfl).2.2.2.2.2.1⟩

/-- C8: toggling a result-type filter while the trimmed query reaches
MIN_CHARS cancels the debounce timer and dispatches exactly one
request immediately, whose types parameter is the comma-joined list of
the tags enabled after the toggle; with a shorter query the flag flips
but no request is dispatched. -/
theorem filter_toggle_dispatch (st : UIState) (t : FilterType) :
    ((jsTrim st.inputValue).length ≥ MIN_CHARS →
      toggleFilter st t =
        ({ st with filters := toggleF st.filters t, debounce := none },
         [⟨jsTrim st.inputValue, MAX_SUGGESTIONS, typesParam (toggleF st.filters t)⟩]))
    ∧ ((jsTrim st.inputValue).length < MIN_CHARS →
      toggleFilter st t = ({ st with filters := toggleF st.filters t }, [])) := by
  constructor
  · intro h
    simp [toggleFilter, mkRequest, h]
  · intro h
    simp only [toggleFilter]
    rw [if_neg (by omega)]

/-- Witness for the C8 theorem: enabling the document filter with the
query "sto" dispatches one request with types "text,image,document";
with the query "s" the flag flips and nothing is dispatched. -/
theorem filter_toggle_dispatch_witness :
    toggleFilter ⟨"sto", "", false, -1, "", ⟨true, true, false⟩, none, true⟩ .document
      = (⟨"sto", "", false, -1, "", ⟨true, true, true⟩, none, true⟩,
         [⟨"sto", 20, "text,image,document"⟩])
    ∧ toggleFilter ⟨"s", "", false, -1, "", ⟨true, true, false⟩, none, true⟩ .text
      = (⟨"s", "", false, -1, "", ⟨false, true, false⟩, none, true⟩, []) :=
  ⟨(filter_toggle_dispatch ⟨"sto", "", false, -1, "", ⟨true, true, false⟩, none, true⟩
      .document).1 (by decide),
   (filter_toggle_dispatch ⟨"s", "", false, -1, "", ⟨true, true, false⟩, none, true⟩
      .text).2 (by decide)⟩

/-- C9 counterexample: for score -1 the code renders -100 percent —
Math.min(100, Math.round(score*100)) has no lower clamp — while
clamping to [0,100] as claimed would render 0. -/
theorem score_negative_counterexample :
    pctOf (some (-1)) = some (-100)
    ∧ pctSpecClamp (-1) = 0
    ∧ pctOf (some (-1)) ≠ some (pctSpecClamp (-1))
    ∧ scoreHtml (some (-1)) = "<span class=\"hs-result-score\">-100%</span>" := by
  have h1 : pctOf (some (-1)) = some (-100) := by
    simp only [pctOf, jsRound_eq_intFloor, jsMin]
    norm_num
  have h2 : pctSpecClamp (-1) = 0 := by
    simp only [pctSpecClamp, jsRound_eq_intFloor, jsMin, jsMax]
    norm_num
  refine ⟨h1, h2, ?_, ?_⟩
  · rw [h1, h2]
    decide
  · simp only [scoreHtml, h1]
    rfl

/-- C9 amended: the rendered percentage is Math.min(100, round) with
no lower clamp, which coincides with the claimed [0,100] clamp for
every nonnegative score; when the score is absent the percentage
element is omitted entirely. -/
theorem score_pct_amended (sc : ℚ) :
    (0 ≤ sc → pctOf (some sc) = some (pctSpecClamp sc))
    ∧ pctOf none = none
    ∧ scoreHtml none = "" := by
  refine ⟨fun h => ?_, rfl, rfl⟩
  have h0 : 0 ≤ jsRound (sc * 100) := by
    rw [jsRound_eq_intFloor]
    apply Int.le_floor.mpr
    push_cast
    positivity
  simp only [pctOf, pctSpecClamp, jsMax]
  split
  · rename_i hle
    have hz : jsRound (sc * 100) = 0 := le_antisymm hle h0
    rw [hz]
  · rfl

/-- Witness for the C9 theorem at score 0.85. -/
theorem score_pct_amended_witness :
    pctOf (some (17 / 20)) = some (pctSpecClamp (17 / 20)) :=
  (score_pct_amended (17 / 20)).1 (by norm_num)

/-- C10: when the fetch or parse fails, fetchResults only swaps the
result-list region for the error placeholder; the selection index,
filter set, input value, panel open state, footer latency and debounce
slot are untouched, and since the step function is total no exception
escapes fetchResults. -/
theorem fetch_failure_localized (st : UIState) :
    fetchResultsStep st none = { st with resultsHtml := errorHtml, hasResults := true }
    ∧ (fetchResultsStep st none).activeIndex = st.activeIndex
    ∧ (fetchResultsStep st none).filters = st.filters
    ∧ (fetchResultsStep st none).inputValue = st.inputValue
    ∧ (fetchResultsStep st none).isOpen = st.isOpen
    ∧ (fetchResultsStep st none).footerTime = st.footerTime
    ∧ (fetchResultsStep st none).debounce = st.debounce := by
  exact ⟨rfl, rfl, rfl, rfl, rfl, rfl, rfl⟩

end HanakSearch
